import Mathlib

/-!
Verification of the heuristic engines of the Adobe-India-Hackathon25 repository
(`Challenge_1a/process_pdfs.py` and `Challenge_1b/process_collections.py`).

Modelling conventions (shallow embedding):
* Python strings are modelled as lists of Unicode code points (`Str := List Nat`);
  `str` converts a Lean string literal.  Python's `str.lower`, `str.strip`,
  `str.split`, `str.isdigit`, `str.isupper`, `str.istitle` and the `in`
  substring operator are modelled over ASCII (the only characters the
  program's keyword tables and patterns use).
* Python floats are modelled as exact rationals (`ℚ`).  Every concrete
  numeric boundary a proved statement depends on was checked to behave
  identically in IEEE-754 double arithmetic (in particular
  `10.0 * 1.1 == 11.0` and `10.0 * 1.2 == 12.0` hold exactly for doubles,
  and `0.1 * 0.2 < 0.1`).
* `fitz` documents are modelled at the interface used by the code:
  a document is a list of pages, a page a list of blocks, a block a list of
  lines, a line a list of spans `{text, size, flags}`.
-/

namespace PdfSpec

/-- Python strings as lists of Unicode code points. -/
abbrev Str := List Nat

/-- Convert a Lean string literal to the code-point model. -/
def str (s : String) : Str := s.data.map Char.toNat

/-- Python `str.isspace` on a single character (ASCII whitespace). -/
def isSpaceC (c : Nat) : Bool := c = 32 || c = 9 || c = 10 || c = 13 || c = 11 || c = 12

/-- ASCII decimal digit. -/
def isDigitC (c : Nat) : Bool := 48 ≤ c && c ≤ 57

/-- ASCII upper-case letter. -/
def isUpperC (c : Nat) : Bool := 65 ≤ c && c ≤ 90

/-- ASCII lower-case letter. -/
def isLowerC (c : Nat) : Bool := 97 ≤ c && c ≤ 122

/-- Python `str.lower` on one character (ASCII model). -/
def lowerC (c : Nat) : Nat := if isUpperC c then c + 32 else c

/-- Python `str.lower` (ASCII model). -/
def lowerStr (s : Str) : Str := s.map lowerC

/-- Python `str.strip`: drop leading and trailing whitespace. -/
def strip (s : Str) : Str :=
  ((s.dropWhile isSpaceC).reverse.dropWhile isSpaceC).reverse

/-- Whether `needle` occurs at the start of `hay`. -/
def startsW : Str → Str → Bool
  | [], _ => true
  | _ :: _, [] => false
  | a :: as, b :: bs => a = b && startsW as bs

/-- Python's substring operator `needle in hay`. -/
def containsSub (needle : Str) : Str → Bool
  | [] => needle.isEmpty
  | b :: bs => startsW needle (b :: bs) || containsSub needle bs

/-- Helper for `splitWs`: the first argument is the word being accumulated. -/
def splitWsAux : Str → Str → List Str
  | acc, [] => if acc.isEmpty then [] else [acc]
  | acc, c :: rest =>
    if isSpaceC c then
      (if acc.isEmpty then splitWsAux [] rest else acc :: splitWsAux [] rest)
    else splitWsAux (acc ++ [c]) rest

/-- Python `str.split()` (split on whitespace runs, dropping empties). -/
def splitWs (s : Str) : List Str := splitWsAux [] s

/-- Python `str.isdigit` (ASCII model): non-empty and all digits.  Also models
the `re.match` of the anchored pattern `\d+$`. -/
def isDigitStr (s : Str) : Bool := !s.isEmpty && s.all isDigitC

/-- Python `str.isupper` (ASCII model): at least one cased character and no
lower-case character. -/
def isUpperPy (s : Str) : Bool := s.any isUpperC && s.all (fun c => !isLowerC c)

/-- State machine for Python `str.istitle` (ASCII model): first argument is the
remaining text, second whether the previous character was cased, third whether
a cased character has been seen. -/
def istitleAux : Str → Bool → Bool → Bool
  | [], _, seen => seen
  | c :: t, prev, seen =>
    if isUpperC c then (if prev then false else istitleAux t true true)
    else if isLowerC c then (if prev then istitleAux t true true else false)
    else istitleAux t false seen

/-- Python `str.istitle` (ASCII model). -/
def istitlePy (s : Str) : Bool := istitleAux s false false

/-- Consume a literal string; return the rest on success (regex literal atom). -/
def consumeLit : Str → Str → Option Str
  | [], l => some l
  | _ :: _, [] => none
  | a :: as, b :: bs => if a = b then consumeLit as bs else none

/-- Consume one-or-more digits (regex atom `\d+`). -/
def consumeDigits1 (l : Str) : Option Str :=
  if (l.takeWhile isDigitC).isEmpty then none else some (l.dropWhile isDigitC)

/-- Consume one-or-more whitespace characters (regex atom `\s+`). -/
def consumeSpaces1 (l : Str) : Option Str :=
  if (l.takeWhile isSpaceC).isEmpty then none else some (l.dropWhile isSpaceC)

/-- Consume an optional literal dot (regex atom `\.?`). -/
def consumeOptDot (l : Str) : Str :=
  match l with
  | c :: t => if c = 46 then t else c :: t
  | [] => []

/-- Tail of the numbered-heading patterns: `\s+[A-Z][^.]*$`. -/
def spacesUpperNoDots (l : Str) : Bool :=
  match consumeSpaces1 l with
  | some r =>
    match r with
    | c :: t => isUpperC c && t.all (fun x => x != 46)
    | [] => false
  | none => false

/-! ### Challenge 1a: `process_pdfs.py` — heading patterns

The eight compiled regexes of `PDFProcessor.heading_patterns`, specialised to
the deterministic character classes they use (`\d`, `\s`, `[A-Z]`, `[a-z]`,
`[^.]` are pairwise disjoint everywhere backtracking could matter, so greedy
matching is exact). -/

/-- Regex 1: `^\d+\.?\s+[A-Z][^.]*$`. -/
def pat1 (l : Str) : Bool :=
  match consumeDigits1 l with
  | some r => spacesUpperNoDots (consumeOptDot r)
  | none => false

/-- Regex 2: `^\d+\.\d+\.?\s+[A-Z][^.]*$`. -/
def pat2 (l : Str) : Bool :=
  match consumeDigits1 l with
  | some r =>
    match r with
    | c :: t =>
      if c = 46 then
        match consumeDigits1 t with
        | some r2 => spacesUpperNoDots (consumeOptDot r2)
        | none => false
      else false
    | [] => false
  | none => false

/-- Regex 3: `^\d+\.\d+\.\d+\.?\s+[A-Z][^.]*$`. -/
def pat3 (l : Str) : Bool :=
  match consumeDigits1 l with
  | some r =>
    match r with
    | c :: t =>
      if c = 46 then
        match consumeDigits1 t with
        | some r2 =>
          match r2 with
          | c2 :: t2 =>
            if c2 = 46 then
              match consumeDigits1 t2 with
              | some r3 => spacesUpperNoDots (consumeOptDot r3)
              | none => false
            else false
          | [] => false
        | none => false
      else false
    | [] => false
  | none => false

/-- Regex 4: `^[A-Z][A-Z\s]+$` (e.g. "TABLE OF CONTENTS"). -/
def pat4 (l : Str) : Bool :=
  match l with
  | c :: rest => isUpperC c && !rest.isEmpty && rest.all (fun x => isUpperC x || isSpaceC x)
  | [] => false

/-- Regex 5: `^[A-Z][a-z\s]+$` (e.g. "Introduction"). -/
def pat5 (l : Str) : Bool :=
  match l with
  | c :: rest => isUpperC c && !rest.isEmpty && rest.all (fun x => isLowerC x || isSpaceC x)
  | [] => false

/-- Regex 6: `^Chapter\s+\d+` (prefix match, no end anchor). -/
def pat6 (l : Str) : Bool :=
  match consumeLit (str "Chapter") l with
  | some r =>
    match consumeSpaces1 r with
    | some r2 => match r2 with | c :: _ => isDigitC c | [] => false
    | none => false
  | none => false

/-- Regex 7: `^Section\s+\d+` (prefix match, no end anchor). -/
def pat7 (l : Str) : Bool :=
  match consumeLit (str "Section") l with
  | some r =>
    match consumeSpaces1 r with
    | some r2 => match r2 with | c :: _ => isDigitC c | [] => false
    | none => false
  | none => false

/-- Regex 8: `^Appendix\s+[A-Z]` (prefix match, no end anchor). -/
def pat8 (l : Str) : Bool :=
  match consumeLit (str "Appendix") l with
  | some r =>
    match consumeSpaces1 r with
    | some r2 => match r2 with | c :: _ => isUpperC c | [] => false
    | none => false
  | none => false

/-- `any(pattern.match(text) for pattern in self.compiled_patterns)` — the
lexical rule of `is_likely_heading` (disjunction over the 8 patterns). -/
def anyHeadingPattern (l : Str) : Bool :=
  pat1 l || pat2 l || pat3 l || pat4 l || pat5 l || pat6 l || pat7 l || pat8 l

/-! ### Challenge 1a: heading classifier and level assigner -/

/-- `PDFProcessor.is_likely_heading(text, font_size, is_bold, avg_font_size)`
(process_pdfs.py lines 98-123).  Rules in source order: trimmed-length gate
`[2, 200]`, the 10%-above-average font-size gate, lexical patterns, bold at
20% above average, all-caps with at most 10 words. -/
def is_likely_heading (text : Str) (font_size : ℚ) (is_bold : Bool) (avg_font_size : ℚ) : Bool :=
  let t := strip text
  if t.length < 2 || t.length > 200 then false
  else if font_size < avg_font_size * (11/10) then false
  else if anyHeadingPattern t then true
  else if is_bold && decide (avg_font_size * (6/5) ≤ font_size) then true
  else if isUpperPy t && decide ((splitWs t).length ≤ 10) then true
  else false

/-- Stable insertion, descending by `key` (the earlier element wins ties):
used to model Python's stable `list.sort` / `sorted`. -/
def insertDescBy (key : α → ℚ) (x : α) : List α → List α
  | [] => [x]
  | y :: ys => if key y ≤ key x then x :: y :: ys else y :: insertDescBy key x ys

/-- Python `sorted(l, key=key, reverse=True)`: a stable descending sort
(CPython's sort is stable; `reverse=True` keeps ties in original order). -/
def sortDescBy (key : α → ℚ) (l : List α) : List α :=
  l.foldr (insertDescBy key) []

/-- `sorted(set(font_sizes), reverse=True)` (process_pdfs.py line 128). -/
def sortedDescSizes (font_sizes : List ℚ) : List ℚ :=
  sortDescBy id font_sizes.dedup

/-- Scan of `determine_heading_level`: return `i + 1` at the first rank whose
size the candidate reaches, else the default 6. -/
def levelScan (fs : ℚ) : List ℚ → Nat → Nat
  | [], _ => 6
  | s :: rest, i => if s ≤ fs then i + 1 else levelScan fs rest (i + 1)

/-- `PDFProcessor.determine_heading_level(font_size, font_sizes)`
(process_pdfs.py lines 125-135), returning the numeric part of the `"H{n}"`
label the source produces. -/
def determine_heading_level (font_size : ℚ) (font_sizes : List ℚ) : Nat :=
  levelScan font_size ((sortedDescSizes font_sizes).take 6) 0

/-! ### Challenge 1a: document model and outline extraction -/

/-- Python `max(a, b)` (returns the first argument on ties). -/
def pyMax (a b : ℚ) : ℚ := if a < b then b else a

/-- Python `min(a, b)` (returns the first argument on ties). -/
def pyMin (a b : ℚ) : ℚ := if b < a then b else a

/-- A styled text fragment as delivered by the parsing layer (`fitz` span). -/
structure Span where
  text : Str
  size : ℚ
  flags : Nat
deriving DecidableEq

/-- A visual line: an ordered list of spans. -/
abbrev LineSp := List Span

/-- A text block: an ordered list of lines. -/
abbrev Block := List LineSp

/-- A page: an ordered list of blocks. -/
abbrev Page := List Block

/-- A parsed document: an ordered list of pages. -/
abbrev Doc := List Page

/-- All spans of a document in reading order. -/
def allSpans (doc : Doc) : List Span := (doc.map (fun p => p.flatten.flatten)).flatten

/-- First pass of `extract_outline`: the multiset of all span font sizes. -/
def fontSizes (doc : Doc) : List ℚ := (allSpans doc).map Span.size

/-- Concatenated text of a line (before stripping). -/
def lineRawText (l : LineSp) : Str := (l.map Span.text).flatten

/-- `line_text.strip()` of a line. -/
def lineText (l : LineSp) : Str := strip (lineRawText l)

/-- `line_font_size`: maximum span size of the line, starting from 0. -/
def lineFontSize (l : LineSp) : ℚ := (l.map Span.size).foldl pyMax 0

/-- `is_bold`: some span of the line has the bold bit `2**4` set. -/
def lineBold (l : LineSp) : Bool := l.any (fun s => s.flags.testBit 4)

/-- An outline entry: `{"level": "H<level>", "text": ..., "page": ...}`;
`level` is the numeric part of the label. -/
structure Heading where
  level : Nat
  text : Str
  page : Nat
deriving DecidableEq

/-- The lines of a document paired with their 1-based page number, in reading
order (block structure only groups lines and does not affect iteration). -/
def linesWithPage (doc : Doc) : List (Nat × LineSp) :=
  (doc.enum.map (fun pi => pi.2.flatten.map (fun l => (pi.1 + 1, l)))).flatten

/-- The classification step of `extract_outline` applied to one line: the
heading candidate produced for it, if any. -/
def classifyLine (avg : ℚ) (sizes : List ℚ) (pl : Nat × LineSp) : Option Heading :=
  if is_likely_heading (lineText pl.2) (lineFontSize pl.2) (lineBold pl.2) avg then
    some ⟨determine_heading_level (lineFontSize pl.2) sizes, lineText pl.2, pl.1⟩
  else none

/-- The duplicate check of `extract_outline` (lines 185-186):
`any(item["text"] == line_text and item["page"] == page for item in outline)`. -/
def seenKey (outline : List Heading) (h : Heading) : Bool :=
  outline.any (fun item => item.text = h.text && item.page = h.page)

/-- One iteration of the second pass of `extract_outline`. -/
def outlineStep (avg : ℚ) (sizes : List ℚ) (outline : List Heading) (pl : Nat × LineSp) :
    List Heading :=
  match classifyLine avg sizes pl with
  | some h => if seenKey outline h then outline else outline ++ [h]
  | none => outline

/-- `PDFProcessor.extract_outline(doc)` (process_pdfs.py lines 137-196):
first pass collects all font sizes (empty → empty outline), second pass
classifies each line against the document average and appends non-duplicate
headings. -/
def extract_outline (doc : Doc) : List Heading :=
  let sizes := fontSizes doc
  if sizes.isEmpty then []
  else
    let avg := sizes.sum / sizes.length
    (linesWithPage doc).foldl (outlineStep avg sizes) []

/-- The undeduplicated heading stream of the second pass of `extract_outline`,
in document order (one entry per accepted line, duplicates kept). -/
def rawHeadings (doc : Doc) : List Heading :=
  let sizes := fontSizes doc
  if sizes.isEmpty then []
  else
    let avg := sizes.sum / sizes.length
    (linesWithPage doc).filterMap (classifyLine avg sizes)

/-- Modelled from the spec: "de-duplicated by `(text, page)` equality, first
occurrence wins, insertion order preserved". -/
def dedupFirstByTextPage (l : List Heading) : List Heading :=
  l.foldl (fun acc h => if seenKey acc h then acc else acc ++ [h]) []

/-! ### Challenge 1a: title resolution -/

/-- Python truthiness-based `x or y` for an optional string `x`
(`None` and `""` are falsy). -/
def pyOrS (x : Option Str) (y : Str) : Str :=
  match x with
  | some t => if t.isEmpty then y else t
  | none => y

/-- `PDFProcessor.extract_title_from_metadata(doc)` (lines 42-52): the
metadata title, stripped, accepted when non-empty with length `> 1`.  The
argument is the (optional) raw metadata title string. -/
def extract_title_from_metadata (meta : Option Str) : Option Str :=
  match meta with
  | some raw =>
    if raw.isEmpty then none
    else
      let t := strip raw
      if !t.isEmpty && decide (1 < t.length) then some t else none
  | none => none

/-- Regex `^page\s+\d+` (applied to the lowered line text). -/
def pageNumStart (l : Str) : Bool :=
  match consumeLit (str "page") l with
  | some r =>
    match consumeSpaces1 r with
    | some r2 => match r2 with | c :: _ => isDigitC c | [] => false
    | none => false
  | none => false

/-- The candidate a line of the first page contributes to
`extract_title_from_first_page`, if any (lines 66-86): text stripped, max
span size, filtered by size `> 0`, length in `(3, 300)`, not a digit string,
not a `page <n>` label, not an all-digit string. -/
def titleCandOfLine (l : LineSp) : Option (Str × ℚ) :=
  let t := lineText l
  let m := lineFontSize l
  if 0 < m ∧ 3 < t.length ∧ t.length < 300 ∧ !isDigitStr t
      ∧ !pageNumStart (lowerStr t) ∧ !isDigitStr (strip t) then
    some (t, m)
  else none

/-- `PDFProcessor.extract_title_from_first_page(doc)` (lines 54-96): collect
candidates from the first 15 blocks of the first page, stable-sort by font
size descending, return the first. -/
def extract_title_from_first_page (doc : Doc) : Option Str :=
  match doc with
  | [] => none
  | p :: _ =>
    let cands := ((p.take 15).map (fun b => b.filterMap titleCandOfLine)).flatten
    match sortDescBy (fun c => c.2) cands with
    | [] => none
    | c :: _ => some c.1

/-- The result of processing one document:
`{"title": ..., "outline": [...]}`. -/
structure PdfResult where
  title : Str
  outline : List Heading
deriving DecidableEq

/-- `PDFProcessor.process_single_pdf` (lines 198-226).  The input models the
outcome of `fitz.open` and in-scope processing: `Except.error` is a raised
exception (caught at line 220), `Except.ok (doc, meta)` a parsed document with
its optional metadata title.  `stem` is `pdf_path.stem`. -/
def process_single_pdf (opened : Except Str (Doc × Option Str)) (stem : Str) : PdfResult :=
  match opened with
  | Except.error _ => ⟨stem, []⟩
  | Except.ok (doc, meta) =>
    ⟨pyOrS (extract_title_from_metadata meta) (pyOrS (extract_title_from_first_page doc) stem),
      extract_outline doc⟩

/-! ### Challenge 1b: `process_collections.py` — keyword tables -/

/-- `persona_keywords["Travel Planner"]["high_priority"]`. -/
def travelHigh : List Str :=
  [str "travel", str "trip", str "vacation", str "hotel", str "restaurant",
   str "tourism", str "destination", str "itinerary", str "attractions",
   str "activities", str "sightseeing", str "accommodation"]

/-- `persona_keywords["Travel Planner"]["medium_priority"]`. -/
def travelMed : List Str :=
  [str "culture", str "history", str "food", str "local", str "guide",
   str "places", str "visit", str "explore", str "experience"]

/-- `persona_keywords["Travel Planner"]["low_priority"]`. -/
def travelLow : List Str :=
  [str "information", str "tips", str "advice", str "recommendations"]

/-- `persona_keywords["HR professional"]["high_priority"]`. -/
def hrHigh : List Str :=
  [str "form", str "forms", str "fillable", str "onboarding", str "compliance",
   str "employee", str "HR", str "human resources", str "signature",
   str "e-signature", str "document"]

/-- `persona_keywords["HR professional"]["medium_priority"]`. -/
def hrMed : List Str :=
  [str "create", str "convert", str "edit", str "export", str "share",
   str "PDF", str "Acrobat", str "workflow"]

/-- `persona_keywords["HR professional"]["low_priority"]`. -/
def hrLow : List Str :=
  [str "training", str "skills", str "learning", str "tutorial"]

/-- `persona_keywords["Food Contractor"]["high_priority"]`. -/
def foodHigh : List Str :=
  [str "food", str "recipe", str "cooking", str "menu", str "dinner",
   str "meal", str "vegetarian", str "gluten-free", str "buffet",
   str "catering", str "ingredients"]

/-- `persona_keywords["Food Contractor"]["medium_priority"]`. -/
def foodMed : List Str :=
  [str "preparation", str "kitchen", str "service", str "dietary",
   str "nutrition", str "cuisine"]

/-- `persona_keywords["Food Contractor"]["low_priority"]`. -/
def foodLow : List Str :=
  [str "ideas", str "tips", str "suggestions"]

/-- `MLEnhancedPDFAnalyzer.persona_keywords[persona]` as
`(high_priority, medium_priority, low_priority)`; `none` for unknown personas. -/
def persona_keywords (persona : Str) : Option (List Str × List Str × List Str) :=
  if persona = str "Travel Planner" then some (travelHigh, travelMed, travelLow)
  else if persona = str "HR professional" then some (hrHigh, hrMed, hrLow)
  else if persona = str "Food Contractor" then some (foodHigh, foodMed, foodLow)
  else none

/-- `vegetarian_indicators["strong_vegetarian"]`. -/
def strongVegetarian : List Str :=
  [str "vegetarian", str "vegan", str "plant-based", str "meatless", str "dairy-free",
   str "tofu", str "tempeh", str "quinoa", str "lentils", str "chickpeas", str "beans",
   str "vegetables", str "salad", str "pasta", str "rice", str "cheese", str "eggs"]

/-- `vegetarian_indicators["neutral_ingredients"]`. -/
def neutralIngredients : List Str :=
  [str "oil", str "salt", str "pepper", str "herbs", str "spices", str "garlic",
   str "onion", str "tomato", str "flour", str "water", str "bread", str "milk",
   str "butter"]

/-- `vegetarian_indicators["non_vegetarian"]`. -/
def nonVegetarian : List Str :=
  [str "beef", str "pork", str "chicken", str "fish", str "salmon", str "tuna",
   str "shrimp", str "meat", str "bacon", str "ham", str "sausage", str "turkey",
   str "lamb", str "seafood"]

/-- `gluten_patterns["gluten_free"]`. -/
def glutenFreeWords : List Str :=
  [str "gluten-free", str "gluten free", str "rice", str "quinoa", str "corn",
   str "potato", str "almond flour", str "coconut flour", str "oat flour"]

/-- `gluten_patterns["contains_gluten"]`. -/
def containsGlutenWords : List Str :=
  [str "wheat", str "flour", str "bread", str "pasta", str "noodles", str "soy sauce",
   str "barley", str "rye", str "bulgur"]

/-- `sum(1 for word in words if word in text_lower)`. -/
def countHits (words : List Str) (textLower : Str) : Nat :=
  (words.filter (fun w => containsSub w textLower)).length

/-! ### Challenge 1b: classifiers and relevance scoring -/

/-- `MLEnhancedPDFAnalyzer.ml_vegetarian_classifier(text)` (lines 133-161),
returning `(vegetarian_prob, confidence)`. -/
def ml_vegetarian_classifier (text : Str) : ℚ × ℚ :=
  let tl := lowerStr text
  let vegCount : ℚ := countHits strongVegetarian tl
  let nonVegCount : ℚ := countHits nonVegetarian tl
  let neutralCount : ℚ := countHits neutralIngredients tl
  let total : ℚ := vegCount + nonVegCount + neutralCount
  if total = 0 then (1/2, 1/10)
  else
    let vegProb := (vegCount + neutralCount * (1/2)) / total
    let confidence := pyMin (total / 10) 1
    let vegProb :=
      if [str "vegetarian", str "vegan", str "plant-based"].any (fun t => containsSub t tl)
      then pyMin (vegProb * (3/2)) 1 else vegProb
    let confidence :=
      if [str "vegetarian", str "vegan", str "plant-based"].any (fun t => containsSub t tl)
      then pyMin (confidence * (6/5)) 1 else confidence
    let vegProb :=
      if 0 < nonVegCount ∧ [str "grill", str "roast", str "fry", str "cook",
          str "season"].any (fun m => containsSub m tl)
      then vegProb * (3/10) else vegProb
    (vegProb, confidence)

/-- `MLEnhancedPDFAnalyzer.ml_gluten_free_classifier(text)` (lines 163-183),
returning `(gluten_free_prob, confidence)`. -/
def ml_gluten_free_classifier (text : Str) : ℚ × ℚ :=
  let tl := lowerStr text
  let gfCount : ℚ := countHits glutenFreeWords tl
  let glutenCount : ℚ := countHits containsGlutenWords tl
  let total : ℚ := gfCount + glutenCount
  if total = 0 then (1/2, 1/10)
  else
    let gfProb := gfCount / total
    let confidence := pyMin (total / 5) 1
    if containsSub (str "gluten-free") tl || containsSub (str "gluten free") tl then
      (pyMin (gfProb * 2) 1, pyMin (confidence * (3/2)) 1)
    else (gfProb, confidence)

/-- `MLEnhancedPDFAnalyzer._calculate_base_relevance(text, persona, job)`
(lines 196-226): tiered keyword sums plus job-word bonus, floored at `0.1`;
constant `1.0` for unknown personas. -/
def calcBaseRelevance (text persona job : Str) : ℚ :=
  match persona_keywords persona with
  | none => 1
  | some (high, med, low) =>
    let tl := lowerStr text
    let jl := lowerStr job
    let score : ℚ := 3 * countHits high tl + 2 * countHits med tl + 1 * countHits low tl
    let jobScore : ℚ :=
      2 * ((splitWs jl).filter (fun w => 3 < w.length ∧ containsSub w tl)).length
    pyMax (score + jobScore) (1/10)

/-- The vegetarian adjustment of `_calculate_food_contractor_ml_score`
(lines 232-245), as the factor it multiplies the running multiplier by. -/
def vegFactor (text job : Str) : ℚ :=
  if containsSub (str "vegetarian") (lowerStr job) then
    let vc := ml_vegetarian_classifier text
    if 3/10 < vc.2 then
      if 7/10 ≤ vc.1 then 3/2
      else if vc.1 ≤ 3/10 then 1/5
      else 4/5
    else 1
  else 1

/-- The gluten-free adjustment of `_calculate_food_contractor_ml_score`
(lines 247-257), as a multiplicative factor. -/
def glutenFactor (text job : Str) : ℚ :=
  if containsSub (str "gluten-free") (lowerStr job) then
    let gc := ml_gluten_free_classifier text
    if 3/10 < gc.2 then
      if 7/10 ≤ gc.1 then 13/10
      else if gc.1 ≤ 3/10 then 7/10
      else 1
    else 1
  else 1

/-- The dinner-context adjustment of `_calculate_food_contractor_ml_score`
(lines 259-271), as a multiplicative factor. -/
def dinnerFactor (text job : Str) : ℚ :=
  if containsSub (str "dinner") (lowerStr job) then
    let dinnerScore := countHits [str "dinner", str "main", str "sides",
      str "entree", str "course"] (lowerStr text)
    let nonDinnerScore := countHits [str "breakfast", str "lunch", str "snack",
      str "appetizer"] (lowerStr text)
    if nonDinnerScore < dinnerScore then 7/5
    else if dinnerScore < nonDinnerScore then 3/5
    else 1
  else 1

/-- The buffet-context adjustment of `_calculate_food_contractor_ml_score`
(lines 273-277), as a multiplicative factor. -/
def buffetFactor (text job : Str) : ℚ :=
  if containsSub (str "buffet") (lowerStr job) then
    if [str "buffet", str "serving", str "large", str "quantity", str "bulk",
        str "crowd"].any (fun p => containsSub p (lowerStr text)) then 6/5
    else 1
  else 1

/-- `MLEnhancedPDFAnalyzer._calculate_food_contractor_ml_score(text, job)`
(lines 228-279).  The source updates `multiplier` in place through the four
independently-gated adjustments; since each update multiplies by a value not
depending on the running multiplier, the result is the product of the four
factors starting from `1.0`. -/
def calcFoodContractorMlScore (text job : Str) : ℚ :=
  1 * vegFactor text job * glutenFactor text job * dinnerFactor text job
    * buffetFactor text job

/-- `MLEnhancedPDFAnalyzer.calculate_ml_relevance_score(text, persona, job)`
(lines 185-194): base score, multiplied by the Food Contractor ML score for
that persona. -/
def calculate_ml_relevance_score (text persona job : Str) : ℚ :=
  let base := calcBaseRelevance text persona job
  if persona = str "Food Contractor" then base * calcFoodContractorMlScore text job
  else base

/-! ### Challenge 1b: structure extraction and section segmentation -/

/-- `text.startswith(("\u2022", "-", "1", "2", "3", "4", "5"))` of the
title-case feature of `_detect_heading_ml` (line 116). -/
def startsBulletOrDigit (text : Str) : Bool :=
  match text with
  | c :: _ => c = 8226 || c = 45 || c = 49 || c = 50 || c = 51 || c = 52 || c = 53
  | [] => false

/-- `MLEnhancedPDFAnalyzer._detect_heading_ml(text, font_size, font_flags)`
(lines 108-131): weighted feature score with threshold `0.4`. -/
def detect_heading_ml (text : Str) (font_size : ℚ) (font_flags : Nat) : Bool :=
  let fontScore : ℚ := if 12 ≤ font_size then 1 else 0
  let boldScore : ℚ := if font_flags.testBit 4 then 1 else 0
  let lengthScore : ℚ := if 5 ≤ text.length ∧ text.length ≤ 50 then 1 else 0
  let recipeScore : ℚ :=
    if [str "ingredients:", str "instructions:", str "recipe",
        str "directions:"].any (fun p => containsSub p (lowerStr text)) then 1 else 0
  let titleScore : ℚ :=
    if istitlePy text ∧ !startsBulletOrDigit text then 1 else 0
  let noDigitsScore : ℚ := if !(text.take 5).any isDigitC then 1 else 0
  let score := fontScore * (2/10) + boldScore * (3/10) + lengthScore * (2/10)
    + recipeScore * (4/10) + titleScore * (2/10) + noDigitsScore * (1/10)
  decide ((4/10 : ℚ) ≤ score)

/-- One entry of the `structured_content` list built by
`extract_text_with_structure`. -/
structure Item where
  text : Str
  page : Nat
  font_size : ℚ
  is_heading : Bool
  flags : Nat
deriving DecidableEq

/-- `MLEnhancedPDFAnalyzer.extract_text_with_structure(pdf_path)`
(lines 76-106): one `Item` per non-empty stripped span, in reading order,
with `is_heading` computed by `detect_heading_ml`. -/
def extract_text_with_structure (doc : Doc) : List Item :=
  (doc.enum.map (fun pi =>
    pi.2.flatten.flatten.filterMap (fun sp =>
      let t := strip sp.text
      if t.isEmpty then none
      else some ⟨t, pi.1 + 1, sp.size, detect_heading_ml t sp.size sp.flags, sp.flags⟩))).flatten

/-- The section-boundary test of `extract_sections` (line 297):
`item["is_heading"] and len(item["text"]) > 5`. -/
def isSectionBoundary (item : Item) : Bool :=
  item.is_heading && decide (5 < item.text.length)

/-- A scored section record as appended by `extract_sections`. -/
structure SectionRec where
  document : Str
  section_title : Str
  content : Str
  page_number : Nat
  relevance_score : ℚ
deriving DecidableEq

/-- `" ".join([c["text"] for c in current_content])`. -/
def joinTexts (cc : List Item) : Str := List.intercalate (str " ") (cc.map Item.text)

/-- The emission step of `extract_sections` (lines 298-314 and 322-336): close
the currently open section if the guard `current_section and current_content`
holds and the computed relevance exceeds `0.1`. -/
def closeSection (fname : Str) (persona : Str) (job : Str)
    (cs : Option Str) (cc : List Item) : List SectionRec :=
  match cs with
  | some title =>
    if !title.isEmpty && !cc.isEmpty then
      let sectionText := joinTexts cc
      let score := calculate_ml_relevance_score (title ++ str " " ++ sectionText) persona job
      if 1/10 < score then
        [⟨fname, title, sectionText, (match cc with | i :: _ => i.page | [] => 1), score⟩]
      else []
    else []
  | none => []

/-- The segmentation loop of `extract_sections` (lines 293-336) over one
document's `structured_content`. -/
def segLoop (fname persona job : Str) : Option Str → List Item → List Item → List SectionRec
  | cs, cc, [] => closeSection fname persona job cs cc
  | cs, cc, item :: rest =>
    if isSectionBoundary item then
      closeSection fname persona job cs cc ++ segLoop fname persona job (some item.text) [] rest
    else segLoop fname persona job cs (cc ++ [item]) rest

/-- `MLEnhancedPDFAnalyzer.extract_sections(documents, persona, job, pdf_dir)`
(lines 281-338).  A document is modelled as its filename together with the
span-level content its PDF parses to. -/
def extract_sections (documents : List (Str × Doc)) (persona job : Str) : List SectionRec :=
  documents.foldl
    (fun acc d => acc ++ segLoop d.1 persona job none [] (extract_text_with_structure d.2))
    []

/-- `MLEnhancedPDFAnalyzer.rank_sections(sections, limit)` (lines 340-343):
stable descending sort by `relevance_score`, truncated to `limit`. -/
def rank_sections (sections : List SectionRec) (limit : Nat) : List SectionRec :=
  (sortDescBy SectionRec.relevance_score sections).take limit

/-! ### Challenge 1b: validation-oriented content enhancement -/

/-- `validator_keywords[persona]` of `enhance_content_for_validation`
(lines 350-354). -/
def validator_keywords (persona : Str) : Option (List Str) :=
  if persona = str "Food Contractor" then
    some [str "menu", str "recipe", str "vegetarian", str "buffet", str "dinner",
          str "corporate", str "catering"]
  else if persona = str "Travel Planner" then
    some [str "trip", str "travel", str "hotel", str "restaurant", str "activity",
          str "guide", str "destination"]
  else if persona = str "HR professional" then
    some [str "form", str "employee", str "onboarding", str "compliance",
          str "digital", str "signature"]
  else none

/-- The fixed sentence block appended for the Food Contractor persona
(line 358). -/
def richContext : Str :=
  str " This recipe is perfect for vegetarian menu planning. The ingredients create excellent buffet-style dinner options for corporate catering events. This menu item works well for large gatherings and addresses dietary requirements."

/-- The f-string `" This {keyword} solution is ideal."` (line 365). -/
def kwFiller (kw : Str) : Str := str " This " ++ kw ++ str " solution is ideal."

/-- The f-string `" Perfect for {word} requirements."` (line 371). -/
def jobFiller (w : Str) : Str := str " Perfect for " ++ w ++ str " requirements."

/-- One step of the keyword-injection loops: append `filler w` when `w` is
missing from the lowered text. -/
def addMissing (filler : Str → Str) (e w : Str) : Str :=
  if containsSub w (lowerStr e) then e else e ++ filler w

/-- `[w for w in job.lower().split() if len(w) > 3]` (line 368). -/
def jobWords (job : Str) : List Str :=
  (splitWs (lowerStr job)).filter (fun w => 3 < w.length)

/-- `MLEnhancedPDFAnalyzer.enhance_content_for_validation(content, persona, job)`
(lines 345-373). -/
def enhance_content_for_validation (content persona job : Str) : Str :=
  let e := content
  let e := if persona = str "Food Contractor" then e ++ richContext else e
  let e :=
    match validator_keywords persona with
    | some kws => kws.foldl (addMissing kwFiller) e
    | none => e
  (jobWords job).foldl (addMissing jobFiller) e

/-- One entry of the `extracted_sections` output list of `process_collection`
(lines 425-433). -/
structure ExtractedEntry where
  document : Str
  section_title : Str
  importance_rank : Nat
  page_number : Nat
deriving DecidableEq

/-- The `extracted_sections` assembler of `process_collection` (lines 425-433):
`importance_rank` is `i + 1` for the `i`-th ranked section. -/
def extractedSectionsOf (top : List SectionRec) : List ExtractedEntry :=
  top.enum.map (fun isec => ⟨isec.2.document, isec.2.section_title, isec.1 + 1, isec.2.page_number⟩)

/-- One part of `refine_content` (line 382):
`"From {doc} - {title}:\n{content[:500]}..."`. -/
def refinePart (s : SectionRec) : Str :=
  str "From " ++ s.document ++ str " - " ++ s.section_title ++ str ":" ++ str "
" ++ s.content.take 500 ++ str "..."

/-- `MLEnhancedPDFAnalyzer.refine_content(sections)` (lines 375-385). -/
def refine_content (sections : List SectionRec) : Str :=
  if sections.isEmpty then str "No relevant content found."
  else List.intercalate (str "

") (sections.map refinePart)

/-- One entry of the `subsection_analysis` output list of `process_collection`
(lines 434-445). -/
structure SubsectionEntry where
  document : Str
  refined_text : Str
  page_number : Nat
deriving DecidableEq

/-- The `subsection_analysis` assembler of `process_collection`
(lines 434-445). -/
def subsectionAnalysisOf (persona job : Str) (top : List SectionRec) : List SubsectionEntry :=
  top.map (fun s => ⟨s.document, enhance_content_for_validation s.content persona job,
    s.page_number⟩)

/-! ## Helper lemmas -/

theorem startsW_self_append (n t : Str) : startsW n (n ++ t) = true := by
  induction n with
  | nil => rfl
  | cons a as ih => simp [startsW, ih]

theorem startsW_of_append (n h t : Str) (hs : startsW n h = true) :
    startsW n (h ++ t) = true := by
  induction n generalizing h with
  | nil => rfl
  | cons a as ih =>
    cases h with
    | nil => simp [startsW] at hs
    | cons b bs =>
      simp only [startsW, Bool.and_eq_true, decide_eq_true_eq] at hs
      simp [startsW, hs.1, ih bs hs.2]

theorem containsSub_nil (n : Str) (hn : n = []) : ∀ l, containsSub n l = true := by
  intro l
  induction l with
  | nil => simp [containsSub, hn]
  | cons b bs ih => simp [containsSub, ih]

theorem containsSub_append_left (n h t : Str) (hc : containsSub n h = true) :
    containsSub n (h ++ t) = true := by
  induction h with
  | nil =>
    simp only [containsSub, List.isEmpty_iff] at hc
    exact containsSub_nil n hc t
  | cons b bs ih =>
    simp only [containsSub, Bool.or_eq_true] at hc ⊢
    rcases hc with hc | hc
    · exact Or.inl (startsW_of_append n (b :: bs) t hc)
    · exact Or.inr (ih hc)

theorem containsSub_append_right (n h t : Str) (hc : containsSub n t = true) :
    containsSub n (h ++ t) = true := by
  induction h with
  | nil => simpa using hc
  | cons b bs ih => simp [containsSub, ih]

theorem containsSub_sandwich (a n b : Str) : containsSub n (a ++ (n ++ b)) = true := by
  apply containsSub_append_right
  cases n with
  | nil => exact containsSub_nil [] rfl b
  | cons c cs =>
    have hs := startsW_self_append (c :: cs) b
    simp only [List.cons_append] at hs
    simp [containsSub, hs]

theorem lowerStr_append (a b : Str) : lowerStr (a ++ b) = lowerStr a ++ lowerStr b := by
  simp [lowerStr]

theorem bool_if_chain (a b c : Bool) :
    (if a = true then true else if b = true then true else if c = true then true else false)
      = (a || b || c) := by
  cases a <;> cases b <;> cases c <;> simp

/-! ## C5: the 10% size gate of the heading classifier -/

/-- C5: with document average font size exactly 10.0, a line of font size 10.9
is rejected by `is_likely_heading` regardless of bold flag or lexical
patterns; a line of font size exactly 11.0 passes the size gate and the
decision is then the first-match disjunction of the lexical-pattern rule, the
bold-at-20%-above-average rule (which cannot fire at 11.0 < 12.0) and the
all-caps rule, in source order.  (Checked against IEEE doubles:
`10.0 * 1.1 == 11.0` and `10.0 * 1.2 == 12.0` exactly.) -/
theorem heading_gate_scenario :
    (∀ text b, is_likely_heading text (109/10) b 10 = false)
    ∧ (∀ text b, 2 ≤ (strip text).length → (strip text).length ≤ 200 →
        is_likely_heading text 11 b 10 =
          (anyHeadingPattern (strip text)
            || (b && decide ((10 : ℚ) * (6/5) ≤ 11))
            || (isUpperPy (strip text) && decide ((splitWs (strip text)).length ≤ 10)))) := by
  constructor
  · intro text b
    unfold is_likely_heading
    by_cases hl : (strip text).length < 2 || (strip text).length > 200
    · simp [hl]
    · have hq : (109/10 : ℚ) < 10 * (11/10) := by norm_num
      simp [hl, hq]
  · intro text b h2 h200
    have hl1 : ¬((strip text).length < 2) := by omega
    have hl2 : ¬((strip text).length > 200) := by omega
    have hq : ¬((11 : ℚ) < 10 * (11/10)) := by norm_num
    have hb : ¬((10 : ℚ) * (6/5) ≤ 11) := by norm_num
    by_cases hsw : (splitWs (strip text)).length ≤ 10 <;>
      cases hpat : anyHeadingPattern (strip text) <;>
      cases hb2 : b <;>
      cases hup : isUpperPy (strip text) <;>
      simp [is_likely_heading, hl1, hl2, hq, hb, hpat, hup, hsw]

/-- Witness for C5 at a concrete line. -/
theorem heading_gate_scenario_witness :
    is_likely_heading (str "HELLO WORLD") (109/10) true 10 = false
    ∧ is_likely_heading (str "HELLO WORLD") 11 false 10 =
        (anyHeadingPattern (strip (str "HELLO WORLD"))
          || (false && decide ((10 : ℚ) * (6/5) ≤ 11))
          || (isUpperPy (strip (str "HELLO WORLD"))
              && decide ((splitWs (strip (str "HELLO WORLD"))).length ≤ 10))) :=
  ⟨heading_gate_scenario.1 (str "HELLO WORLD") true,
   heading_gate_scenario.2 (str "HELLO WORLD") false (by decide) (by decide)⟩

/-! ## C6: heading-level monotonicity -/

theorem levelScan_ge (fs : ℚ) (l : List ℚ) (j : Nat) (h : j + l.length ≤ 6) :
    j ≤ levelScan fs l j := by
  induction l generalizing j with
  | nil =>
    simp only [List.length_nil, Nat.add_zero] at h
    simp only [levelScan]
    omega
  | cons s rest ih =>
    simp only [List.length_cons] at h
    simp only [levelScan]
    by_cases hs : s ≤ fs
    · rw [if_pos hs]; omega
    · rw [if_neg hs]
      have := ih (j + 1) (by omega)
      omega

theorem levelScan_mono (l : List ℚ) (fa fb : ℚ) (i : Nat) (hab : fb ≤ fa)
    (hlen : i + l.length ≤ 6) : levelScan fa l i ≤ levelScan fb l i := by
  induction l generalizing i with
  | nil => simp [levelScan]
  | cons s rest ih =>
    simp only [List.length_cons] at hlen
    simp only [levelScan]
    by_cases hb : s ≤ fb
    · have ha : s ≤ fa := hb.trans hab
      rw [if_pos hb, if_pos ha]
    · rw [if_neg hb]
      by_cases ha : s ≤ fa
      · rw [if_pos ha]
        exact levelScan_ge fb rest (i + 1) (by omega)
      · rw [if_neg ha]
        exact ih (i + 1) (by omega)

/-- C6: for any document font-size list, a heading with strictly larger font
size is assigned a numerically smaller-or-equal level by
`determine_heading_level` (H1 is most prominent). -/
theorem determine_heading_level_mono (font_sizes : List ℚ) (fa fb : ℚ) (h : fb < fa) :
    determine_heading_level fa font_sizes ≤ determine_heading_level fb font_sizes := by
  unfold determine_heading_level
  apply levelScan_mono _ _ _ _ h.le
  have := List.length_take 6 (sortedDescSizes font_sizes)
  omega

/-- Witness for C6 at the spec's scenario sizes. -/
theorem determine_heading_level_mono_witness :
    determine_heading_level 14 [18, 14, 12, 10] ≤ determine_heading_level 10 [18, 14, 12, 10] :=
  determine_heading_level_mono [18, 14, 12, 10] 14 10 (by norm_num)

/-! ## C1: the relevance-score floor -/

theorem calcBaseRelevance_ge (text persona job : Str) :
    1/10 ≤ calcBaseRelevance text persona job := by
  rcases h : persona_keywords persona with _ | ⟨high, med, low⟩
  · simp only [calcBaseRelevance, h]
    norm_num
  · simp only [calcBaseRelevance, h, pyMax]
    split_ifs with hlt
    · exact le_refl _
    · exact le_of_not_lt hlt

theorem vegFactor_pos (text job : Str) : 0 < vegFactor text job := by
  simp only [vegFactor]
  split_ifs <;> norm_num

theorem glutenFactor_pos (text job : Str) : 0 < glutenFactor text job := by
  simp only [glutenFactor]
  split_ifs <;> norm_num

theorem dinnerFactor_pos (text job : Str) : 0 < dinnerFactor text job := by
  simp only [dinnerFactor]
  split_ifs <;> norm_num

theorem buffetFactor_pos (text job : Str) : 0 < buffetFactor text job := by
  simp only [buffetFactor]
  split_ifs <;> norm_num

theorem fcScore_pos (text job : Str) : 0 < calcFoodContractorMlScore text job := by
  simp only [calcFoodContractorMlScore, one_mul]
  exact mul_pos (mul_pos (mul_pos (vegFactor_pos text job) (glutenFactor_pos text job))
    (dinnerFactor_pos text job)) (buffetFactor_pos text job)

/-- C1 counterexample: for the Food Contractor persona the score floor fails.
With section text `"beef pork bacon ham"` and task `"vegetarian"` the base
score is exactly the floor `0.1`, but the vegetarian adjustment multiplies by
`0.2` (four non-vegetarian terms, `veg_prob = 0`, `confidence = 0.4 > 0.3`),
giving `0.02 < 0.1`.  (IEEE doubles agree: `0.1 * 0.2 < 0.1`.) -/
theorem relevance_floor_counterexample :
    calculate_ml_relevance_score (str "beef pork bacon ham") (str "Food Contractor")
        (str "vegetarian") = 1/50
    ∧ ¬((1/10 : ℚ) ≤ 1/50) := by
  have hveg : ml_vegetarian_classifier (str "beef pork bacon ham") = (0, 2/5) := by
    have h1 : countHits strongVegetarian (lowerStr (str "beef pork bacon ham")) = 0 := by decide
    have h2 : countHits nonVegetarian (lowerStr (str "beef pork bacon ham")) = 4 := by decide
    have h3 : countHits neutralIngredients (lowerStr (str "beef pork bacon ham")) = 0 := by
      decide
    have h4 : ([str "vegetarian", str "vegan", str "plant-based"].any
        (fun t => containsSub t (lowerStr (str "beef pork bacon ham")))) = false := by decide
    have h5 : ([str "grill", str "roast", str "fry", str "cook",
        str "season"].any (fun m => containsSub m (lowerStr (str "beef pork bacon ham"))))
        = false := by decide
    simp only [ml_vegetarian_classifier, h1, h2, h3, h4, h5]
    norm_num [pyMin, Prod.ext_iff]
  have hvf : vegFactor (str "beef pork bacon ham") (str "vegetarian") = 1/5 := by
    have hc : containsSub (str "vegetarian") (lowerStr (str "vegetarian")) = true := by decide
    simp only [vegFactor, hc, hveg, if_true]
    norm_num
  have hgf : glutenFactor (str "beef pork bacon ham") (str "vegetarian") = 1 := by
    have hc : containsSub (str "gluten-free") (lowerStr (str "vegetarian")) = false := by decide
    simp [glutenFactor, hc]
  have hdf : dinnerFactor (str "beef pork bacon ham") (str "vegetarian") = 1 := by
    have hc : containsSub (str "dinner") (lowerStr (str "vegetarian")) = false := by decide
    simp [dinnerFactor, hc]
  have hbf : buffetFactor (str "beef pork bacon ham") (str "vegetarian") = 1 := by
    have hc : containsSub (str "buffet") (lowerStr (str "vegetarian")) = false := by decide
    simp [buffetFactor, hc]
  have hfc : calcFoodContractorMlScore (str "beef pork bacon ham") (str "vegetarian")
      = 1/5 := by
    simp only [calcFoodContractorMlScore, hvf, hgf, hdf, hbf]
    norm_num
  have hbase : calcBaseRelevance (str "beef pork bacon ham") (str "Food Contractor")
      (str "vegetarian") = 1/10 := by
    have hpk : persona_keywords (str "Food Contractor") = some (foodHigh, foodMed, foodLow) := by
      decide
    have ch : countHits foodHigh (lowerStr (str "beef pork bacon ham")) = 0 := by decide
    have cm : countHits foodMed (lowerStr (str "beef pork bacon ham")) = 0 := by decide
    have cl : countHits foodLow (lowerStr (str "beef pork bacon ham")) = 0 := by decide
    have cj : ((splitWs (lowerStr (str "vegetarian"))).filter
        (fun w => 3 < w.length ∧ containsSub w (lowerStr (str "beef pork bacon ham")))).length
        = 0 := by decide
    simp only [calcBaseRelevance, hpk, ch, cm, cl, cj]
    norm_num [pyMax]
  refine ⟨?_, by norm_num⟩
  simp only [calculate_ml_relevance_score, if_pos rfl, hbase, hfc]
  norm_num

/-- C1 amended: `calculate_ml_relevance_score` is always strictly positive,
and for every persona other than "Food Contractor" (in particular the other
known personas) it is at least `0.1`; for "Food Contractor" the result is the
floored base score times a positive multiplier and can drop below `0.1`. -/
theorem relevance_floor_amended (text persona job : Str) :
    0 < calculate_ml_relevance_score text persona job
    ∧ (persona ≠ str "Food Contractor" →
        1/10 ≤ calculate_ml_relevance_score text persona job) := by
  have hbase := calcBaseRelevance_ge text persona job
  by_cases hp : persona = str "Food Contractor"
  · refine ⟨?_, fun hne => absurd hp hne⟩
    simp only [calculate_ml_relevance_score, if_pos hp]
    exact mul_pos (lt_of_lt_of_le (by norm_num) hbase) (fcScore_pos text job)
  · simp only [calculate_ml_relevance_score, if_neg hp]
    exact ⟨lt_of_lt_of_le (by norm_num) hbase, fun _ => hbase⟩

/-- Witness for C1 (amended) at a non-Food-Contractor persona. -/
theorem relevance_floor_amended_witness :
    0 < calculate_ml_relevance_score (str "hello") (str "Travel Planner") (str "plan a trip")
    ∧ 1/10 ≤ calculate_ml_relevance_score (str "hello") (str "Travel Planner")
        (str "plan a trip") :=
  ⟨(relevance_floor_amended (str "hello") (str "Travel Planner") (str "plan a trip")).1,
   (relevance_floor_amended (str "hello") (str "Travel Planner") (str "plan a trip")).2
     (by decide)⟩

/-! ## C3: the section-boundary rule of the Challenge 1b segmenter -/

theorem detect_ingredients : detect_heading_ml (str "Ingredients:") 10 0 = true := by
  have hl : (str "Ingredients:").length = 12 := by decide
  have hrec : ([str "ingredients:", str "instructions:", str "recipe",
      str "directions:"].any (fun p => containsSub p (lowerStr (str "Ingredients:"))))
      = true := by decide
  have htit : istitlePy (str "Ingredients:") = true := by decide
  have hbul : startsBulletOrDigit (str "Ingredients:") = false := by decide
  have hdig : ((str "Ingredients:").take 5).any isDigitC = false := by decide
  have hbit : (0 : Nat).testBit 4 = false := by decide
  simp only [detect_heading_ml, hl, hrec, htit, hbul, hdig, hbit]
  norm_num

theorem extract_single_ingredients :
    extract_text_with_structure [[[[⟨str "Ingredients:", 10, 0⟩]]]]
      = [⟨str "Ingredients:", 1, 10, true, 0⟩] := by
  have hstrip : strip (str "Ingredients:") = str "Ingredients:" := by decide
  have hne : (str "Ingredients:").isEmpty = false := by decide
  have hnil : ¬(str "Ingredients:" = []) := by decide
  simp [extract_text_with_structure, List.enum, List.enumFrom, List.filterMap_cons,
    hstrip, hne, hnil, detect_ingredients]

theorem likely_heading_ingredients :
    is_likely_heading (str "Ingredients:") 10 false 10 = false := by
  have hstrip : strip (str "Ingredients:") = str "Ingredients:" := by decide
  have h2 : ¬((str "Ingredients:").length < 2) := by decide
  have h200 : ¬((str "Ingredients:").length > 200) := by decide
  have hq : (10 : ℚ) < 10 * (11/10) := by norm_num
  simp [is_likely_heading, hstrip, h2, h200, hq]

/-- C3 counterexample: in the document whose only span is `"Ingredients:"` at
font size 10 (document average 10, not bold), the segmenter's boundary test
accepts the line (it is `_detect_heading_ml`-positive with trimmed length
`12 > 5`), yet the §4.3 Heading Classifier `is_likely_heading` rejects it
(size gate: `10 < 10 * 1.1`).  So the claimed "boundary iff §4.3 classifier
accepts and length > 5" is false. -/
theorem boundary_classifier_counterexample :
    extract_text_with_structure [[[[⟨str "Ingredients:", 10, 0⟩]]]]
        = [⟨str "Ingredients:", 1, 10, true, 0⟩]
    ∧ isSectionBoundary ⟨str "Ingredients:", 1, 10, true, 0⟩ = true
    ∧ is_likely_heading (str "Ingredients:") 10 false 10 = false := by
  refine ⟨extract_single_ingredients, ?_, likely_heading_ingredients⟩
  decide

theorem extract_text_is_heading (d : Doc) (item : Item)
    (h : item ∈ extract_text_with_structure d) :
    item.is_heading = detect_heading_ml item.text item.font_size item.flags := by
  simp only [extract_text_with_structure, List.mem_flatten, List.mem_map] at h
  obtain ⟨l, ⟨pi, hpi, rfl⟩, hl⟩ := h
  simp only [List.mem_filterMap] at hl
  obtain ⟨sp, hsp, hitem⟩ := hl
  by_cases he : (strip sp.text).isEmpty
  · simp [he] at hitem
  · simp only [he, Bool.false_eq_true, if_false, Option.some.injEq] at hitem
    subst hitem
    rfl

/-- C3 amended: in `extract_sections`, a line of the structured content is a
section boundary iff the Challenge 1b ML heading detector `_detect_heading_ml`
accepts it AND its trimmed length exceeds 5 characters; the Challenge 1a
classifier of §4.3 is not consulted. -/
theorem section_boundary_amended (d : Doc) (item : Item)
    (h : item ∈ extract_text_with_structure d) :
    isSectionBoundary item
      = (detect_heading_ml item.text item.font_size item.flags
          && decide (5 < item.text.length)) := by
  simp only [isSectionBoundary, extract_text_is_heading d item h]

/-- Witness for C3 (amended) at the concrete one-span document. -/
theorem section_boundary_amended_witness :
    isSectionBoundary ⟨str "Ingredients:", 1, 10, true, 0⟩
      = (detect_heading_ml (str "Ingredients:") 10 0
          && decide (5 < (str "Ingredients:").length)) :=
  section_boundary_amended [[[[⟨str "Ingredients:", 10, 0⟩]]]]
    ⟨str "Ingredients:", 1, 10, true, 0⟩
    (by rw [extract_single_ingredients]; exact List.mem_singleton_self _)

/-! ## C2: every emitted section scores above the 0.1 threshold -/

theorem closeSection_score (fname persona job : Str) (cs : Option Str) (cc : List Item)
    (s : SectionRec) (h : s ∈ closeSection fname persona job cs cc) :
    1/10 < s.relevance_score := by
  cases cs with
  | none => simp [closeSection] at h
  | some title =>
    simp only [closeSection] at h
    by_cases hg : !title.isEmpty && !cc.isEmpty
    · rw [if_pos hg] at h
      by_cases hsc : 1/10
          < calculate_ml_relevance_score (title ++ str " " ++ joinTexts cc) persona job
      · rw [if_pos hsc] at h
        simp only [List.mem_singleton] at h
        subst h
        exact hsc
      · rw [if_neg hsc] at h
        simp at h
    · rw [if_neg hg] at h
      simp at h

theorem segLoop_score (fname persona job : Str) (items : List Item) :
    ∀ cs cc s, s ∈ segLoop fname persona job cs cc items → 1/10 < s.relevance_score := by
  induction items with
  | nil =>
    intro cs cc s h
    exact closeSection_score fname persona job cs cc s h
  | cons item rest ih =>
    intro cs cc s h
    simp only [segLoop] at h
    by_cases hb : isSectionBoundary item
    · rw [if_pos hb] at h
      rcases List.mem_append.mp h with h | h
      · exact closeSection_score fname persona job cs cc s h
      · exact ih (some item.text) [] s h
    · rw [if_neg hb] at h
      exact ih cs (cc ++ [item]) s h

/-- C2: every `SectionRec` in the list returned by `extract_sections` has
`relevance_score` strictly greater than `0.1`; a segmented section scoring at
or below `0.1` is discarded by the guards at lines 307 and 329 and never
appears. -/
theorem sections_above_threshold (documents : List (Str × Doc)) (persona job : Str) :
    ∀ s ∈ extract_sections documents persona job, 1/10 < s.relevance_score := by
  unfold extract_sections
  suffices hgen : ∀ (docs : List (Str × Doc)) (acc : List SectionRec),
      (∀ s ∈ acc, 1/10 < s.relevance_score) →
      ∀ s ∈ docs.foldl
        (fun acc d => acc ++ segLoop d.1 persona job none [] (extract_text_with_structure d.2))
        acc, 1/10 < s.relevance_score by
    exact hgen documents [] (by simp)
  intro docs
  induction docs with
  | nil => intro acc hacc s h; exact hacc s h
  | cons d rest ih =>
    intro acc hacc s h
    refine ih _ ?_ s h
    intro t ht
    rcases List.mem_append.mp ht with ht | ht
    · exact hacc t ht
    · exact segLoop_score d.1 persona job _ none [] t ht

theorem detect_ingredients_bold : detect_heading_ml (str "Ingredients:") 14 16 = true := by
  have hl : (str "Ingredients:").length = 12 := by decide
  have hrec : ([str "ingredients:", str "instructions:", str "recipe",
      str "directions:"].any (fun p => containsSub p (lowerStr (str "Ingredients:"))))
      = true := by decide
  have htit : istitlePy (str "Ingredients:") = true := by decide
  have hbul : startsBulletOrDigit (str "Ingredients:") = false := by decide
  have hdig : ((str "Ingredients:").take 5).any isDigitC = false := by decide
  have hbit : (16 : Nat).testBit 4 = true := by decide
  simp only [detect_heading_ml, hl, hrec, htit, hbul, hdig, hbit]
  norm_num

theorem detect_tomato : detect_heading_ml (str "tomato and basil") 10 0 = false := by
  have hl : (str "tomato and basil").length = 16 := by decide
  have hrec : ([str "ingredients:", str "instructions:", str "recipe",
      str "directions:"].any (fun p => containsSub p (lowerStr (str "tomato and basil"))))
      = false := by decide
  have htit : istitlePy (str "tomato and basil") = false := by decide
  have hdig : ((str "tomato and basil").take 5).any isDigitC = false := by decide
  have hbit : (0 : Nat).testBit 4 = false := by decide
  simp only [detect_heading_ml, hl, hrec, htit, hdig, hbit]
  norm_num

theorem extract_two_line_doc :
    extract_text_with_structure [[[[⟨str "Ingredients:", 14, 16⟩],
        [⟨str "tomato and basil", 10, 0⟩]]]]
      = [⟨str "Ingredients:", 1, 14, true, 16⟩, ⟨str "tomato and basil", 1, 10, false, 0⟩] := by
  have hs1 : strip (str "Ingredients:") = str "Ingredients:" := by decide
  have hs2 : strip (str "tomato and basil") = str "tomato and basil" := by decide
  have hn1 : ¬(str "Ingredients:" = []) := by decide
  have hn2 : ¬(str "tomato and basil" = []) := by decide
  simp [extract_text_with_structure, List.enum, List.enumFrom, List.filterMap_cons,
    hs1, hs2, hn1, hn2, detect_ingredients_bold, detect_tomato]

theorem score_unknown_persona :
    calculate_ml_relevance_score (str "Ingredients: tomato and basil")
      (str "X") (str "") = 1 := by
  have hpk : persona_keywords (str "X") = none := by decide
  have hne : ¬(str "X" = str "Food Contractor") := by decide
  simp only [calculate_ml_relevance_score, calcBaseRelevance, hpk, if_neg hne]

theorem extract_sections_concrete :
    extract_sections [(str "f.pdf", [[[[⟨str "Ingredients:", 14, 16⟩],
        [⟨str "tomato and basil", 10, 0⟩]]]])] (str "X") (str "")
      = [⟨str "f.pdf", str "Ingredients:", str "tomato and basil", 1, 1⟩] := by
  have hb1 : isSectionBoundary ⟨str "Ingredients:", 1, 14, true, 16⟩ = true := by decide
  have hb2 : isSectionBoundary ⟨str "tomato and basil", 1, 10, false, 0⟩ = false := by decide
  have hjoin : joinTexts [⟨str "tomato and basil", 1, 10, false, 0⟩]
      = str "tomato and basil" := by decide
  have happ : str "Ingredients:" ++ str " " ++ str "tomato and basil"
      = str "Ingredients: tomato and basil" := by decide
  have hguard : (!(str "Ingredients:").isEmpty
      && !(([(⟨str "tomato and basil", 1, 10, false, 0⟩ : Item)]).isEmpty)) = true := by decide
  simp only [extract_sections, List.foldl_cons, List.foldl_nil, extract_two_line_doc,
    List.nil_append]
  simp only [segLoop, hb1, hb2, if_true, Bool.false_eq_true, if_false]
  simp only [closeSection, List.nil_append]
  rw [hjoin, happ, score_unknown_persona, if_pos hguard,
    if_pos (show (1 : ℚ)/10 < 1 by norm_num)]

/-- Witness for C2 at a concrete two-line document and unknown persona. -/
theorem sections_above_threshold_witness :
    (1 : ℚ)/10
      < (⟨str "f.pdf", str "Ingredients:", str "tomato and basil", 1, 1⟩
          : SectionRec).relevance_score :=
  sections_above_threshold
    [(str "f.pdf", [[[[⟨str "Ingredients:", 14, 16⟩], [⟨str "tomato and basil", 10, 0⟩]]]])]
    (str "X") (str "") _
    (by rw [extract_sections_concrete]; exact List.mem_singleton_self _)

/-! ## C7: outline de-duplication by (text, page) -/

theorem foldl_outlineStep_eq (avg : ℚ) (sizes : List ℚ) (lines : List (Nat × LineSp)) :
    ∀ acc : List Heading,
      lines.foldl (outlineStep avg sizes) acc
        = (lines.filterMap (classifyLine avg sizes)).foldl
            (fun acc h => if seenKey acc h then acc else acc ++ [h]) acc := by
  induction lines with
  | nil => intro acc; rfl
  | cons pl rest ih =>
    intro acc
    simp only [List.foldl_cons, List.filterMap_cons]
    cases hcl : classifyLine avg sizes pl with
    | none => simp only [outlineStep, hcl, ih]
    | some h => simp only [outlineStep, hcl, List.foldl_cons, ih]

theorem dedupFold_pairwise (l : List Heading) :
    ∀ acc : List Heading,
      acc.Pairwise (fun a b => ¬(a.text = b.text ∧ a.page = b.page)) →
      (l.foldl (fun acc h => if seenKey acc h then acc else acc ++ [h]) acc).Pairwise
        (fun a b => ¬(a.text = b.text ∧ a.page = b.page)) := by
  induction l with
  | nil => intro acc hacc; exact hacc
  | cons h rest ih =>
    intro acc hacc
    simp only [List.foldl_cons]
    by_cases hs : seenKey acc h
    · rw [if_pos hs]
      exact ih acc hacc
    · rw [if_neg hs]
      refine ih (acc ++ [h]) ?_
      rw [List.pairwise_append]
      refine ⟨hacc, List.pairwise_singleton _ _, ?_⟩
      intro a ha b hb
      simp only [List.mem_singleton] at hb
      subst hb
      simp only [seenKey, List.any_eq_true, Bool.and_eq_true, decide_eq_true_eq] at hs
      intro hk
      exact hs ⟨a, ha, hk.1, hk.2⟩

/-- C7: the outline returned by `extract_outline` never contains two entries
with identical `(text, page)`, and it equals the first-occurrence-wins,
order-preserving de-duplication (`dedupFirstByTextPage`) of the raw heading
stream of the second pass. -/
theorem outline_dedup_unique (doc : Doc) :
    (extract_outline doc).Pairwise (fun a b => ¬(a.text = b.text ∧ a.page = b.page))
    ∧ extract_outline doc = dedupFirstByTextPage (rawHeadings doc) := by
  have heq : extract_outline doc = dedupFirstByTextPage (rawHeadings doc) := by
    simp only [extract_outline, rawHeadings, dedupFirstByTextPage]
    by_cases hsz : (fontSizes doc).isEmpty
    · simp [hsz]
    · simp only [hsz, Bool.false_eq_true, if_false]
      exact foldl_outlineStep_eq _ _ _ []
  refine ⟨?_, heq⟩
  rw [heq]
  exact dedupFold_pairwise (rawHeadings doc) [] List.Pairwise.nil

/-! ## C10: degraded results, never an exception -/

/-- C10: processing a single document is total — a raised parse failure is
mapped to the degraded result `{"title": stem, "outline": []}` at the
document boundary (lines 220-226), and a document with zero text fragments
yields an empty outline (the guard at lines 154-155; no heading pass runs). -/
theorem process_never_raises :
    (∀ e stem, process_single_pdf (Except.error e) stem = ⟨stem, []⟩)
    ∧ (∀ doc : Doc, allSpans doc = [] → extract_outline doc = []) := by
  constructor
  · intro e stem
    rfl
  · intro doc h
    have hfs : fontSizes doc = [] := by simp [fontSizes, h]
    simp [extract_outline, hfs]

/-- Witness for C10: a failing open and a document with an empty block. -/
theorem process_never_raises_witness :
    process_single_pdf (Except.error (str "bad file")) (str "file1") = ⟨str "file1", []⟩
    ∧ extract_outline ([[[]]] : Doc) = [] :=
  ⟨process_never_raises.1 (str "bad file") (str "file1"),
   process_never_raises.2 [[[]]] rfl⟩

/-! ## C8: title resolution -/

theorem insertDescBy_perm (key : α → ℚ) (x : α) (l : List α) :
    (insertDescBy key x l).Perm (x :: l) := by
  induction l with
  | nil => exact List.Perm.refl _
  | cons y ys ih =>
    simp only [insertDescBy]
    by_cases h : key y ≤ key x
    · rw [if_pos h]
    · rw [if_neg h]
      exact (ih.cons y).trans (List.Perm.swap x y ys)

theorem sortDescBy_perm (key : α → ℚ) (l : List α) : (sortDescBy key l).Perm l := by
  induction l with
  | nil => exact List.Perm.refl _
  | cons a l ih =>
    simp only [sortDescBy, List.foldr_cons]
    exact (insertDescBy_perm key a _).trans (ih.cons a)

theorem mem_of_mem_sortDescBy (key : α → ℚ) (l : List α) (x : α)
    (h : x ∈ sortDescBy key l) : x ∈ l :=
  (sortDescBy_perm key l).mem_iff.mp h

theorem titleCand_length (l : LineSp) (c : Str × ℚ) (h : titleCandOfLine l = some c) :
    3 < c.1.length := by
  simp only [titleCandOfLine] at h
  by_cases hg : 0 < lineFontSize l ∧ 3 < (lineText l).length ∧ (lineText l).length < 300
      ∧ !isDigitStr (lineText l) ∧ !pageNumStart (lowerStr (lineText l))
      ∧ !isDigitStr (strip (lineText l))
  · rw [if_pos hg] at h
    cases h
    exact hg.2.1
  · rw [if_neg hg] at h
    cases h

theorem fp_title_ne_nil (doc : Doc) (t : Str)
    (h : extract_title_from_first_page doc = some t) : t ≠ [] := by
  cases doc with
  | nil => simp [extract_title_from_first_page] at h
  | cons p rest =>
    simp only [extract_title_from_first_page] at h
    cases hs : sortDescBy (fun c => c.2)
        (((p.take 15).map (fun b => b.filterMap titleCandOfLine)).flatten) with
    | nil => rw [hs] at h; cases h
    | cons c cs =>
      rw [hs] at h
      cases h
      have hmem : c ∈ ((p.take 15).map (fun b => b.filterMap titleCandOfLine)).flatten := by
        apply mem_of_mem_sortDescBy (fun c => c.2)
        rw [hs]
        exact List.mem_cons_self _ _
      simp only [List.mem_flatten, List.mem_map] at hmem
      obtain ⟨bl, ⟨b, hb, rfl⟩, hc⟩ := hmem
      simp only [List.mem_filterMap] at hc
      obtain ⟨line, hline, hcl⟩ := hc
      have := titleCand_length line c hcl
      intro hnil
      rw [hnil] at this
      simp at this

theorem meta_title_some (m : Str) (h1 : 1 < (strip m).length) :
    extract_title_from_metadata (some m) = some (strip m) := by
  simp only [extract_title_from_metadata]
  have hmne : m.isEmpty = false := by
    cases hm : m.isEmpty
    · rfl
    · rw [List.isEmpty_iff] at hm
      subst hm
      simp [strip] at h1
  have hsne : (strip m).isEmpty = false := by
    cases hm : (strip m).isEmpty
    · rfl
    · rw [List.isEmpty_iff] at hm
      rw [hm] at h1
      simp at h1
  simp [hmne, hsne, h1]

theorem meta_title_ne_nil (meta : Option Str) (t : Str)
    (h : extract_title_from_metadata meta = some t) : t ≠ [] := by
  cases meta with
  | none => cases h
  | some m =>
    simp only [extract_title_from_metadata] at h
    by_cases hm : m.isEmpty
    · rw [if_pos hm] at h; cases h
    · rw [if_neg hm] at h
      by_cases hg : !(strip m).isEmpty && decide (1 < (strip m).length)
      · rw [if_pos hg] at h
        cases h
        simp only [Bool.and_eq_true, Bool.not_eq_eq_eq_not, Bool.not_true,
          decide_eq_true_eq] at hg
        intro hnil
        rw [hnil] at hg
        simp at hg
      · rw [if_neg hg] at h
        cases h

/-- C8: for every successfully opened document the resolved title is
non-empty (given a non-empty filename stem); a metadata title with trimmed
length greater than 1 is always chosen; and the stem is used exactly when
both the metadata and the first-page strategies yield nothing.  A failed open
also yields the (non-empty) stem. -/
theorem title_resolution (doc : Doc) (meta : Option Str) (stem : Str) (hstem : stem ≠ []) :
    (process_single_pdf (Except.ok (doc, meta)) stem).title ≠ []
    ∧ (∀ m, meta = some m → 1 < (strip m).length →
        (process_single_pdf (Except.ok (doc, meta)) stem).title = strip m)
    ∧ (extract_title_from_metadata meta = none →
        extract_title_from_first_page doc = none →
        (process_single_pdf (Except.ok (doc, meta)) stem).title = stem)
    ∧ (∀ e, (process_single_pdf (Except.error e) stem).title ≠ [])
    ∧ (∀ t, extract_title_from_metadata meta = none →
        extract_title_from_first_page doc = some t →
        (process_single_pdf (Except.ok (doc, meta)) stem).title = t) := by
  refine ⟨?_, ?_, ?_, ?_, ?_⟩
  · show pyOrS (extract_title_from_metadata meta)
      (pyOrS (extract_title_from_first_page doc) stem) ≠ []
    cases hm : extract_title_from_metadata meta with
    | some t =>
      have ht := meta_title_ne_nil meta t hm
      simp [pyOrS, List.isEmpty_iff, ht]
    | none =>
      cases hf : extract_title_from_first_page doc with
      | some t =>
        have ht := fp_title_ne_nil doc t hf
        simp [pyOrS, List.isEmpty_iff, ht]
      | none => simp [pyOrS, hstem]
  · intro m hm h1
    subst hm
    show pyOrS (extract_title_from_metadata (some m))
      (pyOrS (extract_title_from_first_page doc) stem) = strip m
    rw [meta_title_some m h1]
    have : (strip m).isEmpty = false := by
      cases hsm : (strip m).isEmpty
      · rfl
      · rw [List.isEmpty_iff] at hsm
        rw [hsm] at h1
        simp at h1
    simp [pyOrS, this]
  · intro hm hf
    show pyOrS (extract_title_from_metadata meta)
      (pyOrS (extract_title_from_first_page doc) stem) = stem
    rw [hm, hf]
    rfl
  · intro e
    exact hstem
  · intro t hm hf
    show pyOrS (extract_title_from_metadata meta)
      (pyOrS (extract_title_from_first_page doc) stem) = t
    rw [hm, hf]
    have ht := fp_title_ne_nil doc t hf
    simp [pyOrS, List.isEmpty_iff, ht]

/-- Witness for C8 on a concrete metadata title. -/
theorem title_resolution_witness :
    (process_single_pdf (Except.ok (([] : Doc), some (str "My Title"))) (str "doc1")).title
        = strip (str "My Title")
    ∧ (process_single_pdf (Except.ok (([] : Doc), some (str "My Title"))) (str "doc1")).title
        ≠ [] :=
  ⟨(title_resolution [] (some (str "My Title")) (str "doc1") (by decide)).2.1
      (str "My Title") rfl (by decide),
   (title_resolution [] (some (str "My Title")) (str "doc1") (by decide)).1⟩

/-! ## C9: stable descending ranking with dense 1-based ranks -/

theorem insertDescBy_sorted (key : α → ℚ) (x : α) (l : List α)
    (h : l.Pairwise (fun a b => key b ≤ key a)) :
    (insertDescBy key x l).Pairwise (fun a b => key b ≤ key a) := by
  induction l with
  | nil => simp [insertDescBy]
  | cons y ys ih =>
    simp only [insertDescBy]
    rw [List.pairwise_cons] at h
    by_cases hxy : key y ≤ key x
    · rw [if_pos hxy]
      rw [List.pairwise_cons]
      refine ⟨?_, List.pairwise_cons.mpr h⟩
      intro z hz
      rcases List.mem_cons.mp hz with rfl | hz
      · exact hxy
      · exact le_trans (h.1 z hz) hxy
    · rw [if_neg hxy]
      have hxy2 : key x ≤ key y := le_of_lt (lt_of_not_le hxy)
      rw [List.pairwise_cons]
      refine ⟨?_, ih h.2⟩
      intro z hz
      rcases List.mem_cons.mp ((insertDescBy_perm key x ys).mem_iff.mp hz) with rfl | hz2
      · exact hxy2
      · exact h.1 z hz2

theorem sortDescBy_sorted (key : α → ℚ) (l : List α) :
    (sortDescBy key l).Pairwise (fun a b => key b ≤ key a) := by
  induction l with
  | nil => exact List.Pairwise.nil
  | cons a l ih =>
    simp only [sortDescBy, List.foldr_cons]
    exact insertDescBy_sorted key a _ ih

theorem filter_insertDescBy (key : α → ℚ) (x : α) (q : ℚ) (l : List α) :
    (insertDescBy key x l).filter (fun z => decide (key z = q))
      = if key x = q then x :: l.filter (fun z => decide (key z = q))
        else l.filter (fun z => decide (key z = q)) := by
  induction l with
  | nil => by_cases hq : key x = q <;> simp [insertDescBy, List.filter, hq]
  | cons y ys ih =>
    by_cases hxy : key y ≤ key x
    · simp only [insertDescBy, if_pos hxy]
      by_cases hq : key x = q <;> simp [List.filter_cons, hq]
    · simp only [insertDescBy, if_neg hxy]
      have hlt : key x < key y := lt_of_not_le hxy
      by_cases hyq : key y = q
      · by_cases hq : key x = q
        · exfalso
          rw [hq, hyq] at hlt
          exact lt_irrefl q hlt
        · simp [List.filter_cons, hyq, hq, ih]
      · by_cases hq : key x = q <;> simp [List.filter_cons, hyq, hq, ih]

theorem filter_sortDescBy (key : α → ℚ) (q : ℚ) (l : List α) :
    (sortDescBy key l).filter (fun z => decide (key z = q))
      = l.filter (fun z => decide (key z = q)) := by
  induction l with
  | nil => rfl
  | cons a l ih =>
    simp only [sortDescBy, List.foldr_cons] at ih ⊢
    rw [filter_insertDescBy]
    by_cases hq : key a = q
    · rw [if_pos hq, ih, List.filter_cons, if_pos (by simpa using hq)]
    · rw [if_neg hq, ih, List.filter_cons, if_neg (by simpa using hq)]

/-- C9: `rank_sections` is the stable descending sort by `relevance_score`
truncated to the first 10 — the sorted list is a permutation of the input,
its scores are non-increasing, and ties preserve original extraction order
(for every score value, filtering the sort by that score returns exactly the
input's hits in input order).  The assembler of `process_collection` gives
the `i`-th ranked section `importance_rank = i + 1` (dense, 1-based).
Re-running `rank_sections` on the unchanged list is the same pure function
application, so it yields an identical sequence. -/
theorem rank_sections_spec (l : List SectionRec) :
    rank_sections l 10 = (sortDescBy SectionRec.relevance_score l).take 10
    ∧ (sortDescBy SectionRec.relevance_score l).Perm l
    ∧ (sortDescBy SectionRec.relevance_score l).Pairwise
        (fun a b => b.relevance_score ≤ a.relevance_score)
    ∧ (∀ q : ℚ, (sortDescBy SectionRec.relevance_score l).filter
          (fun s => decide (s.relevance_score = q))
        = l.filter (fun s => decide (s.relevance_score = q)))
    ∧ (∀ i, ∀ h : i < (extractedSectionsOf (rank_sections l 10)).length,
        ((extractedSectionsOf (rank_sections l 10)).get ⟨i, h⟩).importance_rank = i + 1) := by
  refine ⟨rfl, sortDescBy_perm _ l, sortDescBy_sorted _ l,
    fun q => filter_sortDescBy _ q l, ?_⟩
  intro i h
  simp only [extractedSectionsOf, List.length_map] at h
  simp only [extractedSectionsOf, List.get_eq_getElem, List.getElem_map, List.getElem_enum]

/-- Witness for C9 on a singleton section list. -/
theorem rank_sections_spec_witness :
    ((extractedSectionsOf (rank_sections
        [(⟨str "d", str "t", str "c", 1, 1⟩ : SectionRec)] 10)).get
      ⟨0, by decide⟩).importance_rank = 0 + 1 :=
  (rank_sections_spec [⟨str "d", str "t", str "c", 1, 1⟩]).2.2.2.2 0 (by decide)

/-! ## C4: validator keyword coverage of enhanced content -/

theorem lowerC_idem (c : Nat) : lowerC (lowerC c) = lowerC c := by
  simp only [lowerC]
  by_cases h : isUpperC c = true
  · rw [if_pos h]
    have h2 : ¬(isUpperC (c + 32) = true) := by
      intro hcontra
      simp only [isUpperC, Bool.and_eq_true, decide_eq_true_eq] at h hcontra
      omega
    rw [if_neg h2]
  · rw [if_neg h, if_neg h]

theorem map_fixed {f : Nat → Nat} : ∀ w : Str, (∀ c ∈ w, f c = c) → w.map f = w := by
  intro w
  induction w with
  | nil => intro _; rfl
  | cons c cs ih =>
    intro h
    simp only [List.map_cons]
    rw [h c (List.mem_cons_self c cs), ih (fun d hd => h d (List.mem_cons_of_mem c hd))]

theorem splitWsAux_chars : ∀ (s acc : Str) (w : Str), w ∈ splitWsAux acc s →
    ∀ c ∈ w, c ∈ acc ∨ c ∈ s := by
  intro s
  induction s with
  | nil =>
    intro acc w hw c hc
    simp only [splitWsAux] at hw
    by_cases ha : acc.isEmpty
    · rw [if_pos ha] at hw; cases hw
    · rw [if_neg ha] at hw
      simp only [List.mem_singleton] at hw
      subst hw
      exact Or.inl hc
  | cons ch rest ih =>
    intro acc w hw c hc
    simp only [splitWsAux] at hw
    by_cases hsp : isSpaceC ch
    · rw [if_pos hsp] at hw
      by_cases ha : acc.isEmpty
      · rw [if_pos ha] at hw
        rcases ih [] w hw c hc with h | h
        · cases h
        · exact Or.inr (List.mem_cons_of_mem ch h)
      · rw [if_neg ha] at hw
        rcases List.mem_cons.mp hw with rfl | hw2
        · exact Or.inl hc
        · rcases ih [] w hw2 c hc with h | h
          · cases h
          · exact Or.inr (List.mem_cons_of_mem ch h)
    · rw [if_neg hsp] at hw
      rcases ih (acc ++ [ch]) w hw c hc with h | h
      · rcases List.mem_append.mp h with h2 | h2
        · exact Or.inl h2
        · simp only [List.mem_singleton] at h2
          subst h2
          exact Or.inr (List.mem_cons_self c rest)
      · exact Or.inr (List.mem_cons_of_mem ch h)

theorem splitWs_chars (s w : Str) (hw : w ∈ splitWs s) : ∀ c ∈ w, c ∈ s := by
  intro c hc
  rcases splitWsAux_chars s [] w hw c hc with h | h
  · cases h
  · exact h

theorem jobWords_lowered (job w : Str) (h : w ∈ jobWords job) : lowerStr w = w := by
  have hw : w ∈ splitWs (lowerStr job) := (List.mem_filter.mp h).1
  apply map_fixed
  intro c hc
  have hcs : c ∈ lowerStr job := splitWs_chars _ _ hw c hc
  simp only [lowerStr, List.mem_map] at hcs
  obtain ⟨c0, _, rfl⟩ := hcs
  exact lowerC_idem c0

theorem foldl_addMissing_extends (filler : Str → Str) (ws : List Str) :
    ∀ e : Str, ∃ t, ws.foldl (addMissing filler) e = e ++ t := by
  induction ws with
  | nil => intro e; exact ⟨[], by simp⟩
  | cons w ws ih =>
    intro e
    simp only [List.foldl_cons]
    obtain ⟨t, ht⟩ := ih (addMissing filler e w)
    rw [ht]
    by_cases hc : containsSub w (lowerStr e)
    · exact ⟨t, by rw [addMissing, if_pos hc]⟩
    · exact ⟨filler w ++ t, by rw [addMissing, if_neg hc, List.append_assoc]⟩

theorem contains_after_fold (filler : Str → Str) (ws : List Str) (e n : Str)
    (h : containsSub n (lowerStr e) = true) :
    containsSub n (lowerStr (ws.foldl (addMissing filler) e)) = true := by
  obtain ⟨t, ht⟩ := foldl_addMissing_extends filler ws e
  rw [ht, lowerStr_append]
  exact containsSub_append_left _ _ _ h

theorem foldl_addMissing_contains (filler : Str → Str) : ∀ ws : List Str,
    (∀ w ∈ ws, containsSub w (lowerStr (filler w)) = true) →
    ∀ e, ∀ w ∈ ws, containsSub w (lowerStr (ws.foldl (addMissing filler) e)) = true := by
  intro ws
  induction ws with
  | nil => intro _ e w hw; cases hw
  | cons w0 ws ih =>
    intro hf e w hw
    simp only [List.foldl_cons]
    rcases List.mem_cons.mp hw with rfl | hw2
    · apply contains_after_fold
      by_cases hc : containsSub w (lowerStr e)
      · rw [addMissing, if_pos hc]
        exact hc
      · rw [addMissing, if_neg hc, lowerStr_append]
        exact containsSub_append_right _ _ _ (hf w (List.mem_cons_self _ _))
    · exact ih (fun v hv => hf v (List.mem_cons_of_mem w0 hv)) (addMissing filler e w0) w hw2

theorem contains_kwFiller (kw : Str) (hk : lowerStr kw = kw) :
    containsSub kw (lowerStr (kwFiller kw)) = true := by
  simp only [kwFiller, lowerStr_append, hk, List.append_assoc]
  exact containsSub_sandwich _ kw _

theorem contains_jobFiller (w : Str) (hk : lowerStr w = w) :
    containsSub w (lowerStr (jobFiller w)) = true := by
  simp only [jobFiller, lowerStr_append, hk, List.append_assoc]
  exact containsSub_sandwich _ w _

/-- C4: for every known persona, every string produced by
`enhance_content_for_validation` — hence every `refined_text` of
`subsection_analysis` and the flattened summary — contains (in its lowered
form, matching the code's case-insensitive `in` test) every validator keyword
of that persona and every word of the task description longer than 3
characters; and whenever some validator keyword is absent from the lowered
input content, the output strictly extends the input by appended synthetic
filler, so it is not purely extracted document content. -/
theorem enhance_keyword_coverage (persona : Str) (kws : List Str) (job : Str)
    (hpk : validator_keywords persona = some kws) :
    (∀ content : Str,
      (∀ kw ∈ kws, containsSub kw
          (lowerStr (enhance_content_for_validation content persona job)) = true)
      ∧ (∀ w ∈ jobWords job, containsSub w
          (lowerStr (enhance_content_for_validation content persona job)) = true)
      ∧ ((∃ kw ∈ kws, containsSub kw (lowerStr content) = false) →
          enhance_content_for_validation content persona job ≠ content
          ∧ ∃ t, enhance_content_for_validation content persona job = content ++ t))
    ∧ (∀ top : List SectionRec, ∀ entry ∈ subsectionAnalysisOf persona job top,
        ∀ kw ∈ kws, containsSub kw (lowerStr entry.refined_text) = true) := by
  have hkl : ∀ kw ∈ kws, lowerStr kw = kw := by
    simp only [validator_keywords] at hpk
    split_ifs at hpk
    · cases Option.some.inj hpk; decide
    · cases Option.some.inj hpk; decide
    · cases Option.some.inj hpk; decide
  have hmain : ∀ content : Str,
      (∀ kw ∈ kws, containsSub kw
          (lowerStr (enhance_content_for_validation content persona job)) = true)
      ∧ (∀ w ∈ jobWords job, containsSub w
          (lowerStr (enhance_content_for_validation content persona job)) = true)
      ∧ ((∃ kw ∈ kws, containsSub kw (lowerStr content) = false) →
          enhance_content_for_validation content persona job ≠ content
          ∧ ∃ t, enhance_content_for_validation content persona job = content ++ t) := by
    intro content
    have henh : enhance_content_for_validation content persona job
        = (jobWords job).foldl (addMissing jobFiller)
            (kws.foldl (addMissing kwFiller)
              (if persona = str "Food Contractor" then content ++ richContext
               else content)) := by
      simp only [enhance_content_for_validation, hpk]
    have hconj1 : ∀ kw ∈ kws, containsSub kw
        (lowerStr (enhance_content_for_validation content persona job)) = true := by
      intro kw hkw
      rw [henh]
      apply contains_after_fold
      exact foldl_addMissing_contains kwFiller kws
        (fun w hw => contains_kwFiller w (hkl w hw)) _ kw hkw
    refine ⟨hconj1, ?_, ?_⟩
    · intro w hw
      rw [henh]
      exact foldl_addMissing_contains jobFiller (jobWords job)
        (fun v hv => contains_jobFiller v (jobWords_lowered job v hv)) _ w hw
    · rintro ⟨kw, hkw, hfalse⟩
      have hext : ∃ t, enhance_content_for_validation content persona job = content ++ t := by
        rw [henh]
        obtain ⟨t1, ht1⟩ := foldl_addMissing_extends kwFiller kws
          (if persona = str "Food Contractor" then content ++ richContext else content)
        obtain ⟨t2, ht2⟩ := foldl_addMissing_extends jobFiller (jobWords job)
          (kws.foldl (addMissing kwFiller)
            (if persona = str "Food Contractor" then content ++ richContext else content))
        rw [ht2, ht1]
        by_cases hp : persona = str "Food Contractor"
        · rw [if_pos hp]
          exact ⟨richContext ++ t1 ++ t2, by simp [List.append_assoc]⟩
        · rw [if_neg hp]
          exact ⟨t1 ++ t2, by simp [List.append_assoc]⟩
      refine ⟨?_, hext⟩
      intro heq
      have hc := hconj1 kw hkw
      rw [heq, hfalse] at hc
      exact Bool.false_ne_true hc
  refine ⟨hmain, ?_⟩
  intro top entry hentry kw hkw
  simp only [subsectionAnalysisOf, List.mem_map] at hentry
  obtain ⟨s, hs, rfl⟩ := hentry
  exact (hmain s.content).1 kw hkw

/-- Witness for C4: the Travel Planner persona with a concrete job and
content. -/
theorem enhance_keyword_coverage_witness :
    containsSub (str "trip")
      (lowerStr (enhance_content_for_validation (str "some pdf text")
        (str "Travel Planner") (str "plan a trip to paris"))) = true
    ∧ containsSub (str "paris")
      (lowerStr (enhance_content_for_validation (str "some pdf text")
        (str "Travel Planner") (str "plan a trip to paris"))) = true :=
  ⟨((enhance_keyword_coverage (str "Travel Planner")
      [str "trip", str "travel", str "hotel", str "restaurant", str "activity",
       str "guide", str "destination"]
      (str "plan a trip to paris") (by decide)).1 (str "some pdf text")).1
        (str "trip") (by decide),
   ((enhance_keyword_coverage (str "Travel Planner")
      [str "trip", str "travel", str "hotel", str "restaurant", str "activity",
       str "guide", str "destination"]
      (str "plan a trip to paris") (by decide)).1 (str "some pdf text")).2.1
        (str "paris") (by decide)⟩
